import Mathlib

/-!
Verification of the Real-Estate-Intelligence-Platform repository against its
natural-language specification.

The repository source consists of the packaging script setup.py; the
training-and-serving pipeline described by the specification is not present in
the source tree.  Accordingly this development has two parts:

* a shallow embedding of setup.py (file reads modelled as optional file
  contents, module-level execution as a function from those contents to the
  arguments passed to the setup call);
* a model of the feature-engineering / training / explainability / registry /
  inference pipeline built from the specification's own words, each definition
  marked as modelled from the spec.

Machine rationals are modelled by ℚ; all definitions are executable.
-/

namespace REIP

/-! ## Part 1: shallow embedding of setup.py -/

/-- Whitespace characters removed by the Python string method strip
(requirement lines are ASCII, so the ASCII whitespace set suffices). -/
def pyIsSpace (c : Char) : Bool :=
  c = ' ' || c = '\t' || c = '\n' || c = '\r' || c = '\x0b' || c = '\x0c'

/-- The Python expression line.strip() of setup.py line 28: remove leading and
trailing whitespace from a line. -/
def pyStrip (s : String) : String :=
  String.mk (((s.data.dropWhile pyIsSpace).reverse.dropWhile pyIsSpace).reverse)

/-- The Python test line.startswith of the hash character, setup.py line 30;
in the source it is applied to the raw line, not the stripped one. -/
def startsWithHash (s : String) : Bool :=
  match s.data with
  | [] => false
  | c :: _ => c = '#'

/-- read_requirements of setup.py lines 22 to 33.  The file system is modelled
by the optional content of requirements.txt given as its list of raw lines;
none means the file does not exist, in which case the function returns the
empty list.  Otherwise it keeps every raw line whose stripped form is
non-empty and which does not itself start with a hash, and returns the
stripped forms in file order. -/
def read_requirements (requirements_txt : Option (List String)) : List String :=
  match requirements_txt with
  | none => []
  | some lines =>
      (lines.filter (fun line => pyStrip line != "" && !startsWithHash line)).map pyStrip

/-- The transcription of claim C8 read literally: the stripped lines of the
file that are non-empty and do not start with a hash, the comment test being
applied to the stripped line.  Kept separate from read_requirements so the two
readings can be compared. -/
def read_requirements_claimed (requirements_txt : Option (List String)) : List String :=
  match requirements_txt with
  | none => []
  | some lines =>
      (lines.map pyStrip).filter (fun line => line != "" && !startsWithHash line)

/-- Per-line behaviour of read_requirements: a raw line is kept, as its
stripped form, exactly when the raw line does not start with a hash and the
stripped form is non-empty. -/
def keptRequirement (line : String) : Option String :=
  if startsWithHash line then none
  else if pyStrip line == "" then none
  else some (pyStrip line)

/-- read_requirements restated line by line through keptRequirement. -/
def read_requirements_amended (requirements_txt : Option (List String)) : List String :=
  (requirements_txt.getD []).filterMap keptRequirement

/-- The dev extras group, setup.py lines 116 to 127. -/
def devExtras : List String :=
  ["pytest>=7.0.0", "pytest-cov>=4.0.0", "pytest-mock>=3.10.0", "black>=23.0.0",
   "flake8>=6.0.0", "isort>=5.12.0", "mypy>=1.0.0", "pre-commit>=3.0.0",
   "sphinx>=6.0.0", "sphinx-rtd-theme>=1.2.0"]

/-- The cloud extras group, setup.py lines 128 to 133. -/
def cloudExtras : List String :=
  ["boto3>=1.26.0", "google-cloud-storage>=2.7.0", "azure-storage-blob>=12.14.0",
   "kubernetes>=25.0.0"]

/-- The monitoring extras group, setup.py lines 134 to 139. -/
def monitoringExtras : List String :=
  ["prometheus-client>=0.16.0", "grafana-api>=1.0.3", "elasticsearch>=8.6.0",
   "kibana-api>=0.1.0"]

/-- The deep-learning extras group, setup.py lines 140 to 145. -/
def deepLearningExtras : List String :=
  ["tensorflow>=2.12.0", "torch>=2.0.0", "torchvision>=0.15.0", "transformers>=4.26.0"]

/-- The nlp extras group, setup.py lines 146 to 151. -/
def nlpExtras : List String :=
  ["spacy>=3.5.0", "nltk>=3.8.0", "textblob>=0.17.0", "transformers>=4.26.0"]

/-- The geo extras group, setup.py lines 152 to 157. -/
def geoExtras : List String :=
  ["geopandas>=0.12.0", "folium>=0.14.0", "contextily>=1.3.0", "osmnx>=1.3.0"]

/-- EXTRAS_REQUIRE before the flattening step, setup.py lines 115 to 161: an
ordered dictionary from group name to requirement list, the all group being
initially empty.  Every entry is a string, so the isinstance filter of the
flattening step keeps everything. -/
def EXTRAS_REQUIRE_initial : List (String × List String) :=
  [("dev", devExtras), ("cloud", cloudExtras), ("monitoring", monitoringExtras),
   ("deep-learning", deepLearningExtras), ("nlp", nlpExtras), ("geo", geoExtras),
   ("all", [])]

/-- The flattening step of setup.py lines 164 to 167: every requirement string
across the group lists, deduplicated through a Python set.  Python set
iteration order is unspecified; it is modelled here by List.dedup, which keeps
one occurrence of each element. -/
def extrasAll : List String :=
  ((EXTRAS_REQUIRE_initial.map Prod.snd).flatten).dedup

/-- Failure raised by the unconditional README.md read of setup.py line 19. -/
inductive SetupFailure where
  | fileNotFound
deriving DecidableEq

/-- The arguments of the setup call that depend on the files read at module
level (setup.py lines 176 and 210). -/
structure SetupCall where
  long_description : String
  install_requires : List String
deriving DecidableEq

/-- Module-level execution of setup.py as a function of the two files it
reads.  README.md is read unconditionally at line 19, so its absence raises
before setup is called; requirements.txt is read through read_requirements,
which guards existence, so its absence does not raise.  When the README read
succeeds, setup is called with the resulting arguments. -/
def runSetupModule (readme : Option String) (requirements_txt : Option (List String)) :
    Except SetupFailure SetupCall :=
  match readme with
  | none => .error .fileNotFound
  | some text =>
      .ok { long_description := text, install_requires := read_requirements requirements_txt }

/-! ## Part 2: the pipeline, modelled from the specification

The training-and-serving pipeline (sections 3 and 4 of the specification) has
no source in the repository; every definition below is modelled from the
specification's words.  Where the specification leaves the concrete algorithm
free (the fitting procedures, the seeded split, the id generation policy) a
simple executable choice is made and documented.
-/

/-- Modelled from the spec: the value of one named field of a PropertyRecord
(section 3); the pipeline source is absent from the repository.  Numeric
quantities are modelled as exact rationals. -/
inductive FieldValue where
  | num (q : ℚ)
  | cat (s : String)
deriving DecidableEq

/-- Modelled from the spec: a PropertyRecord is an ordered set of named fields
(section 3). -/
structure PropertyRecord where
  fields : List (String × FieldValue)
deriving DecidableEq

/-- Modelled from the spec: the transform kind of one FeatureSchema entry
(section 3): numeric passthrough, or categorical one-hot over the category
values observed during schema derivation. -/
inductive TransformKind where
  | numeric
  | categorical (observed : List String)
deriving DecidableEq

/-- Modelled from the spec: a FeatureSchema is an ordered list of field name
and transform kind entries (section 3). -/
abbrev FeatureSchema := List (String × TransformKind)

/-- Modelled from the spec: the number of feature vector slots one entry
expands to; a categorical entry gets one slot per observed value plus the
reserved other bucket (section 4.1). -/
def entryWidth : TransformKind → ℕ
  | .numeric => 1
  | .categorical observed => observed.length + 1

/-- Total width of the feature vectors a schema produces. -/
def schemaWidth (schema : FeatureSchema) : ℕ :=
  (schema.map (fun e => entryWidth e.2)).sum

/-- Lookup of a named field in a record. -/
def lookupField (record : PropertyRecord) (name : String) : Option FieldValue :=
  (record.fields.find? (fun f => f.1 == name)).map Prod.snd

/-- Modelled from the spec: one-hot encoding of a categorical value over the
observed values, with the reserved other bucket receiving the indicator when
the value was not observed during schema derivation (section 4.1 policy for
UnseenCategory: map to the other bucket rather than fail). -/
def encodeCat (observed : List String) (s : String) : List ℚ :=
  (observed.map (fun o => if o = s then (1 : ℚ) else 0)) ++
    [if s ∈ observed then (0 : ℚ) else 1]

/-- Modelled from the spec: failure of the Feature Builder (section 4.1);
an unseen categorical value is deliberately not a failure. -/
inductive BuildFailure where
  | SchemaViolation
deriving DecidableEq

/-- Modelled from the spec: the transform of one schema entry (section 4.1);
fails with SchemaViolation when the required field is absent or of the wrong
kind. -/
def buildEntry (record : PropertyRecord) : String × TransformKind → Except BuildFailure (List ℚ)
  | (name, .numeric) =>
      match lookupField record name with
      | some (.num q) => .ok [q]
      | _ => .error .SchemaViolation
  | (name, .categorical observed) =>
      match lookupField record name with
      | some (.cat s) => .ok (encodeCat observed s)
      | _ => .error .SchemaViolation

/-- Modelled from the spec: build(record, schema) of the Feature Builder
(section 4.1), a pure function of its two arguments concatenating the entry
transforms in schema order. -/
def build (record : PropertyRecord) (schema : FeatureSchema) : Except BuildFailure (List ℚ) :=
  match schema with
  | [] => .ok []
  | e :: rest =>
      match buildEntry record e, build record rest with
      | .ok v, .ok vs => .ok (v ++ vs)
      | .error err, _ => .error err
      | .ok _, .error err => .error err

/-- Structural conformance of one record field to one schema entry: the named
field is present with the declared kind.  Nothing is required about whether a
categorical value was observed. -/
def conformsEntry (record : PropertyRecord) (e : String × TransformKind) : Bool :=
  match e.2, lookupField record e.1 with
  | .numeric, some (.num _) => true
  | .categorical _, some (.cat _) => true
  | _, _ => false

/-- Modelled from the spec: a record structurally conforming to a schema,
every schema field present with its declared kind (section 4.1). -/
def Conforms (record : PropertyRecord) (schema : FeatureSchema) : Prop :=
  schema.all (conformsEntry record) = true

/-- Modelled from the spec: a decision stump, the unit tree of the minimal
gradient-boosted ensemble chosen for the tree model kind; section 4.2 leaves
the concrete estimator free. -/
structure Stump where
  feat : ℕ
  thresh : ℚ
  low : ℚ
  high : ℚ
deriving DecidableEq

/-- Response of a stump on a feature vector. -/
def Stump.eval (s : Stump) (v : List ℚ) : ℚ :=
  if v.getD s.feat 0 ≤ s.thresh then s.low else s.high

/-- Modelled from the spec: the closed set of model kinds, at minimum one
gradient-boosted-tree kind and one linear baseline (section 4.2). -/
inductive ModelKind where
  | linear
  | gbtree
deriving DecidableEq

/-- Modelled from the spec: the serialized parameters of the two model kinds
behind one capability interface (section 4.2 and the design note on model-kind
polymorphism). -/
inductive ModelParams where
  | linear (intercept : ℚ) (weights : List ℚ)
  | gbtree (base : ℚ) (stumps : List Stump)
deriving DecidableEq

/-- The kind tag of a parameter value. -/
def ModelParams.kind : ModelParams → ModelKind
  | .linear _ _ => .linear
  | .gbtree _ _ => .gbtree

/-- Modelled from the spec: the number of free parameters of a fitted model,
used for the tie-break by simpler model (section 4.2). -/
def paramCount : ModelParams → ℕ
  | .linear _ w => w.length + 1
  | .gbtree _ ts => 3 * ts.length + 1

/-- Modelled from the spec: the model point estimate, the predict_raw
operation of the capability interface (design notes). -/
def predictParams (p : ModelParams) (v : List ℚ) : ℚ :=
  match p with
  | .linear b w => b + (w.zipWith (fun wi vi => wi * vi) v).sum
  | .gbtree b ts => b + (ts.map (fun s => s.eval v)).sum

/-- Modelled from the spec: the additive baseline of an Attribution
(section 3). -/
def baselineOf : ModelParams → ℚ
  | .linear b _ => b
  | .gbtree b _ => b

/-- Modelled from the spec: internal consistency of fitted parameters against
a schema width: linear weights cover exactly the slots and every stump tests
an existing slot. -/
def WellFormedParams (p : ModelParams) (width : ℕ) : Prop :=
  match p with
  | .linear _ w => w.length = width
  | .gbtree _ ts => ∀ s ∈ ts, s.feat < width

/-- Modelled from the spec: the training metrics recorded on an artifact
(section 3); squared and absolute validation error as exact rationals. -/
structure Metrics where
  mse : ℚ
  mae : ℚ
deriving DecidableEq

/-- Modelled from the spec: ModelArtifact (section 3), created once per
successful training run. -/
structure ModelArtifact where
  artifact_id : ℕ
  model_kind : ModelKind
  params : ModelParams
  schema : FeatureSchema
  metrics : Metrics
  creation_timestamp : ℕ
deriving DecidableEq

/-- Modelled from the spec: the expanded feature names, one per feature vector
slot; a categorical entry names one slot per observed value and one for the
other bucket. -/
def featureNames : FeatureSchema → List String
  | [] => []
  | (name, .numeric) :: rest => name :: featureNames rest
  | (name, .categorical observed) :: rest =>
      (observed.map (fun o => name ++ "=" ++ o)) ++ [name ++ "=other"] ++ featureNames rest

/-- Modelled from the spec: the per-slot attribution values of a prediction
(section 4.3); for the linear kind each weight times the matching input
coordinate, for the tree kind each slot receives the outputs of the stumps
testing that slot. -/
def attrValues (p : ModelParams) (v : List ℚ) (width : ℕ) : List ℚ :=
  match p with
  | .linear _ w => w.zipWith (fun wi vi => wi * vi) v
  | .gbtree _ ts =>
      (List.range width).map
        (fun i => ((ts.filter (fun s => s.feat == i)).map (fun s => s.eval v)).sum)

/-- Modelled from the spec: failure of the Explainability Engine
(section 4.3). -/
inductive ExplainFailure where
  | IncompatibleArtifact
deriving DecidableEq

/-- Modelled from the spec: explain(artifact, feature_vector) of the
Explainability Engine (section 4.3), an Attribution mapping feature names to
signed contributions; fails with IncompatibleArtifact when the vector length
does not match the artifact's FeatureSchema. -/
def explain (a : ModelArtifact) (v : List ℚ) : Except ExplainFailure (List (String × ℚ)) :=
  if v.length = schemaWidth a.schema then
    .ok ((featureNames a.schema).zip (attrValues a.params v (schemaWidth a.schema)))
  else .error .IncompatibleArtifact

/-- The model's point estimate for an artifact and a feature vector. -/
def predict_raw (a : ModelArtifact) (v : List ℚ) : ℚ :=
  predictParams a.params v

/-- Modelled from the spec: the training configuration (section 6): candidate
model kinds, minimum row count, validation split fraction, random seed. -/
structure TrainConfig where
  model_kinds : List ModelKind
  min_rows : ℕ
  validation_fraction : ℚ
  seed : ℕ
deriving DecidableEq

/-- Modelled from the spec: failures of a training run (sections 4.2 and 7). -/
inductive TrainFailure where
  | InsufficientData
  | NoCandidates
  | SaveFailed
deriving DecidableEq

/-- Arithmetic mean of a list of rationals, zero on the empty list since
rational division by zero is zero. -/
def mean (l : List ℚ) : ℚ := l.sum / l.length

/-- Modelled from the spec: the deterministic seeded train/validation split
(section 4.2); the seed rotates the row order and the first
validation_fraction of the rotated rows is held out for validation.  The
result is the pair of training rows then validation rows. -/
def splitData (rows : List (List ℚ × ℚ)) (fraction : ℚ) (seed : ℕ) :
    List (List ℚ × ℚ) × List (List ℚ × ℚ) :=
  let shift := seed % (rows.length + 1)
  let rotated := rows.drop shift ++ rows.take shift
  let valCount := (fraction * rows.length).floor.toNat
  (rotated.drop valCount, rotated.take valCount)

/-- Modelled from the spec: the fit of the linear baseline kind, an
intercept-only fit at the mean target; the concrete algorithm is left free by
section 4.2. -/
def fitLinear (trainRows : List (List ℚ × ℚ)) (width : ℕ) : ModelParams :=
  .linear (mean (trainRows.map Prod.snd)) (List.replicate width 0)

/-- Modelled from the spec: the fit of the gradient-boosted-tree kind, one
boosting round producing a single stump on the first slot; the concrete
algorithm is left free by section 4.2. -/
def fitGbtree (trainRows : List (List ℚ × ℚ)) (width : ℕ) : ModelParams :=
  let base := mean (trainRows.map Prod.snd)
  if width = 0 then .gbtree base []
  else
    let t := mean (trainRows.map (fun r => r.1.getD 0 0))
    let lows := trainRows.filter (fun r => decide (r.1.getD 0 0 ≤ t))
    let highs := trainRows.filter (fun r => !(decide (r.1.getD 0 0 ≤ t)))
    .gbtree base
      [⟨0, t, mean (lows.map Prod.snd) - base, mean (highs.map Prod.snd) - base⟩]

/-- Dispatch of the fitting procedures over the model kinds. -/
def fitKind : ModelKind → List (List ℚ × ℚ) → ℕ → ModelParams
  | .linear, tr, w => fitLinear tr w
  | .gbtree, tr, w => fitGbtree tr w

/-- Modelled from the spec: a fitted candidate of one training run together
with its validation errors (section 4.2). -/
structure Candidate where
  params : ModelParams
  valError : ℚ
  valAbsError : ℚ
deriving DecidableEq

/-- Mean squared error of fitted parameters on the held-out rows, the
validation metric of section 4.2. -/
def valMse (p : ModelParams) (valRows : List (List ℚ × ℚ)) : ℚ :=
  mean (valRows.map (fun r => (predictParams p r.1 - r.2) ^ 2))

/-- Mean absolute error of fitted parameters on the held-out rows. -/
def valMae (p : ModelParams) (valRows : List (List ℚ × ℚ)) : ℚ :=
  mean (valRows.map (fun r => |predictParams p r.1 - r.2|))

/-- Training rows of one run under the seeded split. -/
def trainRowsOf (xs : List (List ℚ)) (ys : List ℚ) (cfg : TrainConfig) :
    List (List ℚ × ℚ) :=
  (splitData (xs.zip ys) cfg.validation_fraction cfg.seed).1

/-- Validation rows of one run under the seeded split. -/
def valRowsOf (xs : List (List ℚ)) (ys : List ℚ) (cfg : TrainConfig) :
    List (List ℚ × ℚ) :=
  (splitData (xs.zip ys) cfg.validation_fraction cfg.seed).2

/-- Modelled from the spec: the fitted candidates of one training run, one
per configured model kind, each with its validation error (section 4.2). -/
def candidates (xs : List (List ℚ)) (ys : List ℚ) (cfg : TrainConfig) (width : ℕ) :
    List Candidate :=
  cfg.model_kinds.map (fun k =>
    let p := fitKind k (trainRowsOf xs ys cfg) width
    { params := p, valError := valMse p (valRowsOf xs ys cfg),
      valAbsError := valMae p (valRowsOf xs ys cfg) })

/-- Modelled from the spec: strict preference between candidates, lower
validation error first, ties broken by fewer parameters (section 4.2). -/
def betterCand (a b : Candidate) : Bool :=
  decide (a.valError < b.valError) ||
    (decide (a.valError = b.valError) && decide (paramCount a.params < paramCount b.params))

/-- Left fold selecting the preferred candidate, the earlier one winning exact
ties. -/
def pickChampion (c : Candidate) (rest : List Candidate) : Candidate :=
  rest.foldl (fun best x => if betterCand x best then x else best) c

/-- Modelled from the spec: champion selection, the candidate with the lowest
validation error, ties broken by simpler model (section 4.2). -/
def selectChampion : List Candidate → Option Candidate
  | [] => none
  | c :: rest => some (pickChampion c rest)

/-- Modelled from the spec: train(feature_vectors, targets, config) of the
Model Trainer (section 4.2); fails with InsufficientData below the configured
minimum row count; the schema the vectors were built with, the fresh artifact
id and the creation time are supplied by the caller. -/
def train (xs : List (List ℚ)) (ys : List ℚ) (cfg : TrainConfig) (schema : FeatureSchema)
    (newId now : ℕ) : Except TrainFailure ModelArtifact :=
  if xs.length < cfg.min_rows then .error .InsufficientData
  else
    match selectChampion (candidates xs ys cfg (schemaWidth schema)) with
    | none => .error .NoCandidates
    | some c =>
        .ok { artifact_id := newId, model_kind := c.params.kind, params := c.params,
              schema := schema, metrics := { mse := c.valError, mae := c.valAbsError },
              creation_timestamp := now }

/-- Modelled from the spec: failures of the Artifact Registry (section 4.4). -/
inductive RegistryFailure where
  | DuplicateArtifact
  | NotFound
  | EmptyRegistry
deriving DecidableEq

/-- Modelled from the spec: the Artifact Registry, its stored artifacts in
save order; saves happen one per successful run, so save order is
creation_timestamp order (sections 4.4 and 6). -/
structure Registry where
  entries : List ModelArtifact
deriving DecidableEq

/-- The artifact ids in use in a registry. -/
def Registry.ids (r : Registry) : List ℕ :=
  r.entries.map (fun a => a.artifact_id)

/-- Modelled from the spec: save(artifact) of the Registry (section 4.4),
append-only, failing with DuplicateArtifact on an id collision. -/
def save (r : Registry) (a : ModelArtifact) : Except RegistryFailure (Registry × ℕ) :=
  if r.entries.any (fun b => b.artifact_id == a.artifact_id) then .error .DuplicateArtifact
  else .ok (⟨r.entries ++ [a]⟩, a.artifact_id)

/-- Modelled from the spec: load(artifact_id) of the Registry (section 4.4),
failing with NotFound for an unknown id. -/
def load (r : Registry) (id : ℕ) : Except RegistryFailure ModelArtifact :=
  match r.entries.find? (fun a => a.artifact_id == id) with
  | some a => .ok a
  | none => .error .NotFound

/-- Modelled from the spec: latest() of the Registry (section 4.4), the most
recently saved artifact, failing with EmptyRegistry when nothing has ever been
saved. -/
def latest (r : Registry) : Except RegistryFailure ModelArtifact :=
  match r.entries.getLast? with
  | some a => .ok a
  | none => .error .EmptyRegistry

/-- Sequential saves of a list of artifacts, stopping at the first failure. -/
def saveAll (r : Registry) : List ModelArtifact → Except RegistryFailure Registry
  | [] => .ok r
  | a :: rest =>
      match save r a with
      | .ok (r2, _) => saveAll r2 rest
      | .error e => .error e

/-- Modelled from the spec: the id generation policy making DuplicateArtifact
practically unreachable, here the successor of the largest id in use
(section 4.4). -/
def freshId (r : Registry) : ℕ :=
  (r.ids.foldr max 0) + 1

/-- Modelled from the spec: one training run against the Registry, the save
being all-or-nothing (section 7); on any failure the Registry is returned
unchanged and no artifact is produced. -/
def runTraining (r : Registry) (xs : List (List ℚ)) (ys : List ℚ) (cfg : TrainConfig)
    (schema : FeatureSchema) (now : ℕ) : Registry × Except TrainFailure ModelArtifact :=
  match train xs ys cfg schema (freshId r) now with
  | .error e => (r, .error e)
  | .ok a =>
      match save r a with
      | .ok (r2, _) => (r2, .ok a)
      | .error _ => (r, .error .SaveFailed)

/-- Modelled from the spec: the operations of the core contract touching the
Registry (sections 4.2, 4.4, 4.5). -/
inductive RegistryOp where
  | saveOp (a : ModelArtifact)
  | loadOp (id : ℕ)
  | latestOp
  | trainOp (xs : List (List ℚ)) (ys : List ℚ) (cfg : TrainConfig)
      (schema : FeatureSchema) (now : ℕ)

/-- The registry state after one operation; reads leave it untouched, a
failed save or training run leaves it untouched as well. -/
def applyOp (r : Registry) : RegistryOp → Registry
  | .saveOp a =>
      match save r a with
      | .ok (r2, _) => r2
      | .error _ => r
  | .loadOp _ => r
  | .latestOp => r
  | .trainOp xs ys cfg schema now => (runTraining r xs ys cfg schema now).1

/-- Modelled from the spec: failures of the Inference Service (section 4.5). -/
inductive InferFailure where
  | NotFound
  | EmptyRegistry
  | SchemaViolation
  | IncompatibleArtifact
deriving DecidableEq

/-- Modelled from the spec: PredictionResult (section 3). -/
structure PredictionResult where
  point_estimate : ℚ
  attribution : List (String × ℚ)
  artifact_id : ℕ
deriving DecidableEq

/-- Resolution of the artifact reference of a prediction request: a given id
through load, or the latest artifact. -/
def resolveArtifact (r : Registry) (aid : Option ℕ) : Except RegistryFailure ModelArtifact :=
  match aid with
  | some id => load r id
  | none => latest r

/-- Modelled from the spec: predict(record, artifact_id_or_latest) of the
Inference Service (section 4.5): load the artifact or the latest one, build
the feature vector with the artifact's own schema, run inference and the
explainability engine, assemble the result. -/
def predict (r : Registry) (record : PropertyRecord) (aid : Option ℕ) :
    Except InferFailure PredictionResult :=
  match resolveArtifact r aid with
  | .error .NotFound => .error .NotFound
  | .error .EmptyRegistry => .error .EmptyRegistry
  | .error .DuplicateArtifact => .error .NotFound
  | .ok a =>
      match build record a.schema with
      | .error .SchemaViolation => .error .SchemaViolation
      | .ok v =>
          match explain a v with
          | .error .IncompatibleArtifact => .error .IncompatibleArtifact
          | .ok attr =>
              .ok { point_estimate := predict_raw a v, attribution := attr,
                    artifact_id := a.artifact_id }

/-! ### Concrete instances used by the witness theorems -/

/-- A one-field numeric schema. -/
def sampleSchema : FeatureSchema := [("area", .numeric)]

/-- A configuration with the linear kind only, no minimum row count, no
held-out rows and seed zero. -/
def sampleCfg : TrainConfig :=
  { model_kinds := [.linear], min_rows := 0, validation_fraction := 0, seed := 0 }

/-- A configuration with both kinds, exercising the tie-break. -/
def tieCfg : TrainConfig :=
  { model_kinds := [.gbtree, .linear], min_rows := 0, validation_fraction := 0, seed := 0 }

/-- The artifact produced by training on the single row area 1, price 2 under
sampleCfg or tieCfg into an empty registry. -/
def sampleArtifact : ModelArtifact :=
  { artifact_id := 1, model_kind := .linear, params := .linear 2 [0], schema := sampleSchema,
    metrics := { mse := 0, mae := 0 }, creation_timestamp := 0 }

/-- A family of artifacts distinguished by id. -/
def idArtifact (n : ℕ) : ModelArtifact :=
  { artifact_id := n, model_kind := .linear, params := .linear 0 [], schema := [],
    metrics := { mse := 0, mae := 0 }, creation_timestamp := n }

/-- A one-field categorical schema with two observed values. -/
def catSchema : FeatureSchema := [("ptype", .categorical ["flat", "house"])]

/-- An artifact over catSchema (three slots: two observed values plus the
other bucket). -/
def catArtifact : ModelArtifact :=
  { artifact_id := 7, model_kind := .linear, params := .linear 3 [0, 0, 0], schema := catSchema,
    metrics := { mse := 0, mae := 0 }, creation_timestamp := 0 }

/-- A record whose categorical value was never observed. -/
def unseenRecord : PropertyRecord := ⟨[("ptype", .cat "villa")]⟩

/-! ## Theorems -/

/-- Helper: the filter-then-strip comprehension of read_requirements is the
per-line function keptRequirement mapped over the file. -/
lemma read_requirements_line_by_line (lines : List String) :
    (lines.filter (fun line => pyStrip line != "" && !startsWithHash line)).map pyStrip
      = lines.filterMap keptRequirement := by
  induction lines with
  | nil => rfl
  | cons l ls ih =>
      cases h1 : startsWithHash l <;> cases h2 : pyStrip l == "" <;>
        simp [List.filter_cons, List.filterMap_cons, keptRequirement, h1, h2, bne] <;>
        simpa [bne] using ih

/-- C8 counterexample: on a file whose only line is a comment indented by
whitespace, the code keeps the stripped line (the raw line does not start
with a hash), while the claim as stated discards it (the stripped line does
start with a hash), so the claim fails at this input. -/
theorem read_requirements_claim_false :
    read_requirements (some ["  # pinned"]) = ["# pinned"] ∧
    read_requirements_claimed (some ["  # pinned"]) = [] := by
  decide

/-- C8 (amended): read_requirements returns the empty list when
requirements.txt does not exist; when the file exists it returns, in file
order, the stripped forms of exactly those lines whose stripped form is
non-empty and whose raw, unstripped line does not start with a hash. -/
theorem read_requirements_amended_holds :
    ∀ requirements_txt,
      read_requirements requirements_txt = read_requirements_amended requirements_txt := by
  intro requirements_txt
  cases requirements_txt with
  | none => rfl
  | some lines =>
      simpa [read_requirements, read_requirements_amended] using
        read_requirements_line_by_line lines

/-- C9: after the flattening step the all extra holds, as a set, exactly the
union of the six requirement groups, without duplicates; in particular the
requirement shared by the deep-learning and nlp groups appears exactly once.
The order of the flattened list is unspecified. -/
theorem extrasAll_spec :
    (∀ r : String, r ∈ extrasAll ↔
        r ∈ devExtras ++ cloudExtras ++ monitoringExtras ++ deepLearningExtras ++
            nlpExtras ++ geoExtras) ∧
    extrasAll.Nodup ∧
    extrasAll.count "transformers>=4.26.0" = 1 := by
  refine ⟨fun r => ?_, List.nodup_dedup _, by decide⟩
  rw [extrasAll, List.mem_dedup]
  have h : (EXTRAS_REQUIRE_initial.map Prod.snd).flatten =
      devExtras ++ cloudExtras ++ monitoringExtras ++ deepLearningExtras ++
        nlpExtras ++ geoExtras := by decide
  rw [h]

/-- C10: module-level execution of setup.py reads README.md unconditionally
before setup is invoked: when README.md is absent the run fails without a
setup call, while when it is present setup is called, and the absence of
requirements.txt is guarded and leads to an empty install_requires rather
than a failure. -/
theorem setup_readme_unconditional :
    (∀ reqs, runSetupModule none reqs = .error .fileNotFound) ∧
    (∀ text reqs, runSetupModule (some text) reqs =
        .ok { long_description := text, install_requires := read_requirements reqs }) ∧
    (∀ text, runSetupModule (some text) none =
        .ok { long_description := text, install_requires := [] }) :=
  ⟨fun _ => rfl, fun _ _ => rfl, fun _ => rfl⟩

/-- C2: build is deterministic and side-effect-free: being a pure function of
the record and the schema, any two calls on identical inputs return identical
FeatureVectors. -/
theorem build_deterministic (r1 r2 : PropertyRecord) (s1 s2 : FeatureSchema)
    (h1 : r1 = r2) (h2 : s1 = s2) : build r1 s1 = build r2 s2 := by
  rw [h1, h2]

/-- C2 witness: determinism of build at a concrete record and schema. -/
theorem build_deterministic_witness :
    build ⟨[("area", .num 120)]⟩ [("area", .numeric)] =
      build ⟨[("area", .num 120)]⟩ [("area", .numeric)] :=
  build_deterministic ⟨[("area", .num 120)]⟩ ⟨[("area", .num 120)]⟩
    [("area", .numeric)] [("area", .numeric)] rfl rfl

/-- C3: a training run over fewer rows than the configured minimum fails with
InsufficientData, produces no artifact, and leaves the Registry unchanged,
with its entry count identical. -/
theorem train_insufficient_data (r : Registry) (xs : List (List ℚ)) (ys : List ℚ)
    (cfg : TrainConfig) (schema : FeatureSchema) (now : ℕ)
    (h : xs.length < cfg.min_rows) :
    runTraining r xs ys cfg schema now = (r, .error .InsufficientData) ∧
    (runTraining r xs ys cfg schema now).1.entries.length = r.entries.length := by
  have htrain : train xs ys cfg schema (freshId r) now = .error .InsufficientData := by
    simp [train, h]
  constructor
  · simp [runTraining, htrain]
  · simp [runTraining, htrain]

/-- C3 witness: an empty training set against a minimum of five rows fails
with InsufficientData and leaves the empty registry empty. -/
theorem train_insufficient_data_witness :
    runTraining ⟨[]⟩ [] [] ⟨[ModelKind.linear, ModelKind.gbtree], 5, 1/5, 42⟩ [] 0 =
      ((⟨[]⟩ : Registry), .error .InsufficientData) ∧
    (runTraining ⟨[]⟩ [] [] ⟨[ModelKind.linear, ModelKind.gbtree], 5, 1/5, 42⟩ [] 0).1.entries.length =
      (⟨[]⟩ : Registry).entries.length :=
  train_insufficient_data ⟨[]⟩ [] [] ⟨[ModelKind.linear, ModelKind.gbtree], 5, 1/5, 42⟩ [] 0
    (by decide)

/-- Helper: what a successful save tells us: the new registry is the old one
with the artifact appended, the returned id is the artifact's, and no stored
artifact already carried that id. -/
lemma save_ok_elim {r r2 : Registry} {a : ModelArtifact} {id : ℕ}
    (h : save r a = .ok (r2, id)) :
    r2 = ⟨r.entries ++ [a]⟩ ∧ id = a.artifact_id ∧
      r.entries.any (fun b => b.artifact_id == a.artifact_id) = false := by
  unfold save at h
  split at h
  · simp at h
  · next hc =>
      rw [Bool.not_eq_true] at hc
      simp only [Except.ok.injEq, Prod.mk.injEq] at h
      exact ⟨h.1.symm, h.2.symm, hc⟩

/-- Helper: loading the id of a freshly appended artifact finds exactly that
artifact, since no earlier entry carries the id. -/
lemma load_concat_self {entries : List ModelArtifact} {a : ModelArtifact}
    (hfresh : entries.any (fun b => b.artifact_id == a.artifact_id) = false) :
    load ⟨entries ++ [a]⟩ a.artifact_id = .ok a := by
  unfold load
  have h1 : entries.find? (fun b => b.artifact_id == a.artifact_id) = none :=
    List.find?_eq_none.mpr (List.any_eq_false.mp hfresh)
  rw [List.find?_append, h1]
  simp [List.find?]

/-- Helper: a successful sequence of saves whose last artifact is a yields a
registry whose latest artifact is a. -/
lemma saveAll_latest :
    ∀ (prior : List ModelArtifact) (r r2 : Registry) (a : ModelArtifact),
      saveAll r (prior ++ [a]) = .ok r2 → latest r2 = .ok a := by
  intro prior
  induction prior with
  | nil =>
      intro r r2 a h
      simp only [List.nil_append] at h
      unfold saveAll at h
      cases hs : save r a with
      | error e => rw [hs] at h; simp at h
      | ok p =>
          obtain ⟨r3, id⟩ := p
          rw [hs] at h
          unfold saveAll at h
          simp only [Except.ok.injEq] at h
          obtain ⟨hr3, -, -⟩ := save_ok_elim hs
          rw [← h, hr3]
          unfold latest
          rw [List.getLast?_concat]
  | cons b bs ih =>
      intro r r2 a h
      simp only [List.cons_append] at h
      unfold saveAll at h
      cases hs : save r b with
      | error e => rw [hs] at h; simp at h
      | ok p =>
          obtain ⟨r3, id⟩ := p
          rw [hs] at h
          exact ih r3 r2 a h

/-- C4: save followed by load of the returned id gives back a value-equal
artifact; latest after any non-empty sequence of successful saves is the most
recently saved artifact; load of an id no stored artifact carries fails with
NotFound; latest on a registry with no saves fails with EmptyRegistry. -/
theorem registry_contract :
    (∀ (r r2 : Registry) (a : ModelArtifact) (id : ℕ),
        save r a = .ok (r2, id) → load r2 id = .ok a) ∧
    (∀ (r r2 : Registry) (prior : List ModelArtifact) (a : ModelArtifact),
        saveAll r (prior ++ [a]) = .ok r2 → latest r2 = .ok a) ∧
    (∀ (r : Registry) (id : ℕ), (∀ b ∈ r.entries, b.artifact_id ≠ id) →
        load r id = .error .NotFound) ∧
    (∀ r : Registry, r.entries = [] → latest r = .error .EmptyRegistry) := by
  refine ⟨?_, fun r r2 prior a h => saveAll_latest prior r r2 a h, ?_, ?_⟩
  · intro r r2 a id h
    obtain ⟨hr2, hid, hfresh⟩ := save_ok_elim h
    rw [hr2, hid]
    exact load_concat_self hfresh
  · intro r id hmem
    unfold load
    have h1 : r.entries.find? (fun a => a.artifact_id == id) = none :=
      List.find?_eq_none.mpr (fun b hb => by simp [hmem b hb])
    rw [h1]
  · intro r hr
    unfold latest
    rw [hr]
    rfl

/-- C4 witness: round trip, latest after two sequential saves, load of an
unknown id, and latest on the empty registry, all at concrete artifacts. -/
theorem registry_contract_witness :
    load ⟨[idArtifact 1]⟩ 1 = .ok (idArtifact 1) ∧
    latest ⟨[idArtifact 1, idArtifact 2]⟩ = .ok (idArtifact 2) ∧
    load ⟨[idArtifact 1]⟩ 7 = .error .NotFound ∧
    latest ⟨[]⟩ = .error .EmptyRegistry :=
  ⟨registry_contract.1 ⟨[]⟩ ⟨[idArtifact 1]⟩ (idArtifact 1) 1 (by with_unfolding_all rfl),
   registry_contract.2.1 ⟨[]⟩ ⟨[idArtifact 1, idArtifact 2]⟩ [idArtifact 1] (idArtifact 2)
     (by with_unfolding_all rfl),
   registry_contract.2.2.1 ⟨[idArtifact 1]⟩ 7 (by decide),
   registry_contract.2.2.2 ⟨[]⟩ rfl⟩

/-- Helper: every member of a list of naturals is bounded by its folded
maximum. -/
lemma le_foldr_max (l : List ℕ) (x : ℕ) (hx : x ∈ l) : x ≤ l.foldr max 0 := by
  induction l with
  | nil => cases hx
  | cons a as ih =>
      rcases List.mem_cons.mp hx with h | h
      · subst h; exact le_max_left _ _
      · exact le_trans (ih h) (le_max_right _ _)

/-- Helper: the generated fresh id is not in use. -/
lemma freshId_not_mem (r : Registry) : freshId r ∉ r.ids := by
  intro h
  have := le_foldr_max r.ids (freshId r) h
  unfold freshId at this
  omega

/-- Helper: what a successful training run tells us: a champion was selected
among the fitted candidates and the artifact is assembled from it. -/
lemma train_ok_elim {xs : List (List ℚ)} {ys : List ℚ} {cfg : TrainConfig}
    {schema : FeatureSchema} {newId now : ℕ} {a : ModelArtifact}
    (h : train xs ys cfg schema newId now = .ok a) :
    ∃ c, selectChampion (candidates xs ys cfg (schemaWidth schema)) = some c ∧
      a = { artifact_id := newId, model_kind := c.params.kind, params := c.params,
            schema := schema, metrics := { mse := c.valError, mae := c.valAbsError },
            creation_timestamp := now } := by
  unfold train at h
  split at h
  · simp at h
  · cases hc : selectChampion (candidates xs ys cfg (schemaWidth schema)) with
    | none => rw [hc] at h; simp at h
    | some c =>
        rw [hc] at h
        simp only [Except.ok.injEq] at h
        exact ⟨c, rfl, h.symm⟩

/-- Helper: train never reports the save-step failure. -/
lemma train_ne_saveFailed (xs : List (List ℚ)) (ys : List ℚ) (cfg : TrainConfig)
    (schema : FeatureSchema) (newId now : ℕ) :
    train xs ys cfg schema newId now ≠ .error .SaveFailed := by
  unfold train
  split
  · simp
  · cases hc : selectChampion (candidates xs ys cfg (schemaWidth schema)) <;> simp

/-- Helper: saving the artifact of a successful training run cannot collide,
its id being fresh. -/
lemma save_fresh_ok (r : Registry) (a : ModelArtifact) (ha : a.artifact_id = freshId r) :
    save r a = .ok (⟨r.entries ++ [a]⟩, a.artifact_id) := by
  unfold save
  rw [if_neg]
  rw [Bool.not_eq_true, List.any_eq_false]
  intro b hb
  simp only [beq_iff_eq]
  intro hba
  exact freshId_not_mem r (by rw [← ha, ← hba]; exact List.mem_map_of_mem _ hb)

/-- C5: the Registry is append-only and artifacts are immutable: every core
operation maps the entry list to itself extended by a possibly empty tail, so
previously stored artifacts stay present and value-unchanged; a successful
training run appends one artifact whose id was not previously in use, never
overwriting an existing artifact_id; and the save step of a training run can
never be the failing one, the generated id being fresh. -/
theorem registry_append_only :
    (∀ (r : Registry) (op : RegistryOp), ∃ tail, (applyOp r op).entries = r.entries ++ tail) ∧
    (∀ (r r2 : Registry) (xs : List (List ℚ)) (ys : List ℚ) (cfg : TrainConfig)
        (schema : FeatureSchema) (now : ℕ) (a : ModelArtifact),
        runTraining r xs ys cfg schema now = (r2, .ok a) →
        a.artifact_id ∉ r.ids ∧ r2.entries = r.entries ++ [a]) ∧
    (∀ (r : Registry) (xs : List (List ℚ)) (ys : List ℚ) (cfg : TrainConfig)
        (schema : FeatureSchema) (now : ℕ),
        (runTraining r xs ys cfg schema now).2 ≠ .error .SaveFailed) := by
  refine ⟨?_, ?_, ?_⟩
  · intro r op
    cases op with
    | saveOp a =>
        cases hs : save r a with
        | error e => exact ⟨[], by simp [applyOp, hs]⟩
        | ok p =>
            obtain ⟨r2, id⟩ := p
            obtain ⟨hr2, -, -⟩ := save_ok_elim hs
            exact ⟨[a], by simp [applyOp, hs, hr2]⟩
    | loadOp id => exact ⟨[], by simp [applyOp]⟩
    | latestOp => exact ⟨[], by simp [applyOp]⟩
    | trainOp xs ys cfg schema now =>
        cases ht : train xs ys cfg schema (freshId r) now with
        | error e => exact ⟨[], by simp [applyOp, runTraining, ht]⟩
        | ok a =>
            cases hs : save r a with
            | error e => exact ⟨[], by simp [applyOp, runTraining, ht, hs]⟩
            | ok p =>
                obtain ⟨r2, id⟩ := p
                obtain ⟨hr2, -, -⟩ := save_ok_elim hs
                exact ⟨[a], by simp [applyOp, runTraining, ht, hs, hr2]⟩
  · intro r r2 xs ys cfg schema now a h
    unfold runTraining at h
    split at h
    · simp at h
    · rename_i b ht
      split at h
      · rename_i p r3 id hs
        simp only [Prod.mk.injEq, Except.ok.injEq] at h
        obtain ⟨hr3, hba⟩ := h
        subst hba
        obtain ⟨hr3e, -, hfresh⟩ := save_ok_elim hs
        constructor
        · intro hmem
          obtain ⟨b2, hb2, hb2a⟩ := List.mem_map.mp hmem
          have := List.any_eq_false.mp hfresh b2 hb2
          simp [hb2a] at this
        · rw [← hr3, hr3e]
      · simp at h
  · intro r xs ys cfg schema now
    cases ht : train xs ys cfg schema (freshId r) now with
    | error e =>
        simp only [runTraining, ht]
        intro hcontra
        simp only [Except.error.injEq] at hcontra
        exact train_ne_saveFailed xs ys cfg schema (freshId r) now (by rw [ht, hcontra])
    | ok a =>
        obtain ⟨c, -, hart⟩ := train_ok_elim ht
        have ha : a.artifact_id = freshId r := by rw [hart]
        simp [runTraining, ht, save_fresh_ok r a ha]

/-- C5 witness: one save into the empty registry extends the entry list, one
successful training run appends its artifact with a fresh id, and the save
step of a concrete run is not the failing one. -/
theorem registry_append_only_witness :
    (∃ tail, (applyOp ⟨[]⟩ (.saveOp (idArtifact 1))).entries =
        (⟨[]⟩ : Registry).entries ++ tail) ∧
    (sampleArtifact.artifact_id ∉ (⟨[]⟩ : Registry).ids ∧
      (⟨[sampleArtifact]⟩ : Registry).entries = (⟨[]⟩ : Registry).entries ++ [sampleArtifact]) ∧
    (runTraining ⟨[]⟩ [[1]] [2] sampleCfg sampleSchema 0).2 ≠ .error .SaveFailed :=
  ⟨registry_append_only.1 ⟨[]⟩ (.saveOp (idArtifact 1)),
   registry_append_only.2.1 ⟨[]⟩ ⟨[sampleArtifact]⟩ [[1]] [2] sampleCfg sampleSchema 0
     sampleArtifact (by with_unfolding_all rfl),
   registry_append_only.2.2 ⟨[]⟩ [[1]] [2] sampleCfg sampleSchema 0⟩

/-- Helper: the preference test spelled out as an order proposition. -/
lemma betterCand_true_iff (a b : Candidate) :
    betterCand a b = true ↔
      a.valError < b.valError ∨
        (a.valError = b.valError ∧ paramCount a.params < paramCount b.params) := by
  simp [betterCand]

/-- Helper: failing the preference test spelled out: the right candidate is
at least as good. -/
lemma betterCand_false_iff (a b : Candidate) :
    betterCand a b = false ↔
      b.valError ≤ a.valError ∧
        (a.valError = b.valError → paramCount b.params ≤ paramCount a.params) := by
  rw [← Bool.not_eq_true, betterCand_true_iff]
  push_neg
  constructor
  · rintro ⟨h1, h2⟩
    exact ⟨h1, h2⟩
  · rintro ⟨h1, h2⟩
    exact ⟨h1, h2⟩

/-- Helper: no candidate is preferred to itself. -/
lemma betterCand_irrefl (a : Candidate) : betterCand a a = false := by
  rw [betterCand_false_iff]
  exact ⟨le_refl _, fun _ => le_refl _⟩

/-- Helper: the preference is transitive. -/
lemma betterCand_trans {a b c : Candidate}
    (h1 : betterCand a b = true) (h2 : betterCand b c = true) : betterCand a c = true := by
  rw [betterCand_true_iff] at h1 h2 ⊢
  rcases h1 with h1 | ⟨he1, hp1⟩ <;> rcases h2 with h2 | ⟨he2, hp2⟩
  · exact Or.inl (h1.trans h2)
  · exact Or.inl (lt_of_lt_of_le h1 (le_of_eq he2))
  · exact Or.inl (lt_of_le_of_lt (le_of_eq he1) h2)
  · exact Or.inr ⟨he1.trans he2, hp1.trans hp2⟩

/-- Helper: not being preferred is transitive. -/
lemma betterCand_false_trans {a b c : Candidate}
    (h1 : betterCand a b = false) (h2 : betterCand b c = false) :
    betterCand a c = false := by
  rw [betterCand_false_iff] at h1 h2 ⊢
  refine ⟨h2.1.trans h1.1, fun he => ?_⟩
  have hab : a.valError = b.valError := by linarith [h1.1, h2.1, he]
  have hbc : b.valError = c.valError := by linarith [h1.1, h2.1, he]
  exact (h2.2 hbc).trans (h1.2 hab)

/-- Helper: a candidate preferred to another inherits the other's failures of
the preference test. -/
lemma betterCand_false_of_better {a b res : Candidate}
    (hab : betterCand a b = true) (hares : betterCand a res = false) :
    betterCand b res = false := by
  cases h : betterCand b res with
  | false => rfl
  | true => rw [betterCand_trans hab h] at hares; cases hares

/-- Helper: the folded champion is one of the candidates. -/
lemma pickChampion_mem (c0 : Candidate) (rest : List Candidate) :
    pickChampion c0 rest ∈ c0 :: rest := by
  induction rest generalizing c0 with
  | nil => simp [pickChampion]
  | cons d ds ih =>
      show pickChampion (if betterCand d c0 then d else c0) ds ∈ c0 :: d :: ds
      by_cases hb : betterCand d c0 = true
      · rw [if_pos hb]
        exact List.mem_cons_of_mem _ (ih d)
      · rw [if_neg hb]
        rcases List.mem_cons.mp (ih c0) with h | h
        · rw [h]; exact List.mem_cons_self _ _
        · exact List.mem_cons_of_mem _ (List.mem_cons_of_mem _ h)

/-- Helper: no candidate of the list is preferred to the folded champion. -/
lemma pickChampion_min (c0 : Candidate) (rest : List Candidate) :
    ∀ x ∈ c0 :: rest, betterCand x (pickChampion c0 rest) = false := by
  induction rest generalizing c0 with
  | nil =>
      intro x hx
      rcases List.mem_cons.mp hx with h | h
      · rw [h]; exact betterCand_irrefl _
      · cases h
  | cons d ds ih =>
      intro x hx
      show betterCand x (pickChampion (if betterCand d c0 then d else c0) ds) = false
      by_cases hb : betterCand d c0 = true
      · rw [if_pos hb]
        have hres := ih d
        rcases List.mem_cons.mp hx with hx0 | hx1
        · rw [hx0]
          exact betterCand_false_of_better hb (hres d (List.mem_cons_self _ _))
        · rcases List.mem_cons.mp hx1 with hxd | hxds
          · rw [hxd]; exact hres d (List.mem_cons_self _ _)
          · exact hres x (List.mem_cons_of_mem _ hxds)
      · rw [if_neg hb]
        have hres := ih c0
        have hbf : betterCand d c0 = false := Bool.eq_false_iff.mpr hb
        rcases List.mem_cons.mp hx with hx0 | hx1
        · rw [hx0]; exact hres c0 (List.mem_cons_self _ _)
        · rcases List.mem_cons.mp hx1 with hxd | hxds
          · rw [hxd]
            exact betterCand_false_trans hbf (hres c0 (List.mem_cons_self _ _))
          · exact hres x (List.mem_cons_of_mem _ hxds)

/-- Helper: selectChampion returns a member of the candidate list. -/
lemma selectChampion_mem {cands : List Candidate} {c : Candidate}
    (h : selectChampion cands = some c) : c ∈ cands := by
  cases cands with
  | nil => simp [selectChampion] at h
  | cons c0 rest =>
      simp only [selectChampion, Option.some.injEq] at h
      rw [← h]
      exact pickChampion_mem c0 rest

/-- Helper: no candidate is preferred to the selected champion. -/
lemma selectChampion_min {cands : List Candidate} {c : Candidate}
    (h : selectChampion cands = some c) :
    ∀ x ∈ cands, betterCand x c = false := by
  cases cands with
  | nil => simp [selectChampion] at h
  | cons c0 rest =>
      simp only [selectChampion, Option.some.injEq] at h
      rw [← h]
      exact pickChampion_min c0 rest

/-- C7: over a training run whose candidate kinds include the
gradient-boosted-tree kind and the linear baseline, the artifact train emits
carries the parameters of a fitted candidate whose validation error is
minimal among all candidates, and among candidates tying on validation error
its parameter count is minimal. -/
theorem train_selects_champion :
    ∀ (xs : List (List ℚ)) (ys : List ℚ) (cfg : TrainConfig) (schema : FeatureSchema)
      (newId now : ℕ) (a : ModelArtifact),
      ModelKind.gbtree ∈ cfg.model_kinds →
      ModelKind.linear ∈ cfg.model_kinds →
      train xs ys cfg schema newId now = .ok a →
      ∃ c ∈ candidates xs ys cfg (schemaWidth schema),
        a.params = c.params ∧ a.metrics.mse = c.valError ∧
        ∀ c2 ∈ candidates xs ys cfg (schemaWidth schema),
          c.valError ≤ c2.valError ∧
            (c2.valError = c.valError → paramCount c.params ≤ paramCount c2.params) := by
  intro xs ys cfg schema newId now a hg hl htrain
  obtain ⟨c, hsel, hart⟩ := train_ok_elim htrain
  refine ⟨c, selectChampion_mem hsel, by rw [hart], by rw [hart], ?_⟩
  intro c2 hc2
  have := selectChampion_min hsel c2 hc2
  rw [betterCand_false_iff] at this
  exact this

/-- C7 witness: on a one-row run with both kinds configured, the two fitted
candidates tie on validation error and the linear one, with fewer parameters,
is selected. -/
theorem train_selects_champion_witness :
    ∃ c ∈ candidates [[1]] [2] tieCfg (schemaWidth sampleSchema),
      sampleArtifact.params = c.params ∧ sampleArtifact.metrics.mse = c.valError ∧
      ∀ c2 ∈ candidates [[1]] [2] tieCfg (schemaWidth sampleSchema),
        c.valError ≤ c2.valError ∧
          (c2.valError = c.valError → paramCount c.params ≤ paramCount c2.params) :=
  train_selects_champion [[1]] [2] tieCfg sampleSchema 1 0 sampleArtifact
    (by decide) (by decide) (by with_unfolding_all rfl)

/-- Helper: a conforming entry builds successfully and contributes exactly
its width. -/
lemma buildEntry_ok_of_conforms {record : PropertyRecord} {e : String × TransformKind}
    (h : conformsEntry record e = true) :
    ∃ ws, buildEntry record e = .ok ws ∧ ws.length = entryWidth e.2 := by
  obtain ⟨name, k⟩ := e
  cases k with
  | numeric =>
      cases hl : lookupField record name with
      | none => simp [conformsEntry, hl] at h
      | some fv =>
          cases fv with
          | num q => exact ⟨[q], by simp [buildEntry, hl], rfl⟩
          | cat s => simp [conformsEntry, hl] at h
  | categorical observed =>
      cases hl : lookupField record name with
      | none => simp [conformsEntry, hl] at h
      | some fv =>
          cases fv with
          | num q => simp [conformsEntry, hl] at h
          | cat s =>
              refine ⟨encodeCat observed s, by simp [buildEntry, hl], ?_⟩
              simp [encodeCat, entryWidth]

/-- Helper: a record conforming to a schema builds successfully into a vector
of exactly the schema width, whether or not its categorical values were
observed. -/
lemma build_ok_of_conforms {record : PropertyRecord} {schema : FeatureSchema}
    (h : Conforms record schema) :
    ∃ v, build record schema = .ok v ∧ v.length = schemaWidth schema := by
  induction schema with
  | nil => exact ⟨[], rfl, rfl⟩
  | cons e rest ih =>
      unfold Conforms at h
      rw [List.all_cons, Bool.and_eq_true] at h
      obtain ⟨ws, hws, hwl⟩ := buildEntry_ok_of_conforms h.1
      obtain ⟨vs, hvs, hvl⟩ := ih h.2
      refine ⟨ws ++ vs, by simp [build, hws, hvs], ?_⟩
      simp [schemaWidth, hwl, hvl]

/-- C6: a categorical value absent from the observed values is mapped by the
Feature Builder to the reserved other bucket rather than an error, and for a
record conforming to the resolved artifact's schema the Inference Service
returns a PredictionResult, no matter whether the record's categorical values
were observed during schema derivation. -/
theorem unseen_category_fallback :
    (∀ (observed : List String) (s : String), s ∉ observed →
        encodeCat observed s = List.replicate observed.length 0 ++ [1]) ∧
    (∀ (r : Registry) (record : PropertyRecord) (aid : Option ℕ) (a : ModelArtifact),
        resolveArtifact r aid = .ok a → Conforms record a.schema →
        ∃ res, predict r record aid = .ok res ∧ res.artifact_id = a.artifact_id) := by
  constructor
  · intro observed s hs
    unfold encodeCat
    rw [if_neg hs]
    congr 1
    have h0 : ∀ o ∈ observed, (if o = s then (1 : ℚ) else 0) = 0 :=
      fun o ho => if_neg (fun he => hs (by rw [← he]; exact ho))
    rw [List.map_congr_left h0]
    exact List.map_const' observed 0
  · intro r record aid a hres hconf
    obtain ⟨v, hv, hvl⟩ := build_ok_of_conforms hconf
    have hex : explain a v =
        .ok ((featureNames a.schema).zip (attrValues a.params v (schemaWidth a.schema))) := by
      unfold explain
      rw [if_pos hvl]
    refine ⟨{ point_estimate := predict_raw a v,
              attribution :=
                (featureNames a.schema).zip (attrValues a.params v (schemaWidth a.schema)),
              artifact_id := a.artifact_id }, ?_, rfl⟩
    simp [predict, hres, hv, hex, predict_raw]

/-- C6 witness: the unseen value villa lands in the other bucket, and predict
on a record carrying it returns a PredictionResult from the latest artifact. -/
theorem unseen_category_fallback_witness :
    encodeCat ["flat", "house"] "villa" = List.replicate 2 0 ++ [1] ∧
    ∃ res, predict ⟨[catArtifact]⟩ unseenRecord none = .ok res ∧
      res.artifact_id = catArtifact.artifact_id :=
  ⟨unseen_category_fallback.1 ["flat", "house"] "villa" (by decide),
   unseen_category_fallback.2 ⟨[catArtifact]⟩ unseenRecord none catArtifact
     (by with_unfolding_all rfl) (by with_unfolding_all rfl)⟩

/-- Helper: one expanded name per feature slot. -/
lemma featureNames_length (schema : FeatureSchema) :
    (featureNames schema).length = schemaWidth schema := by
  induction schema with
  | nil => rfl
  | cons e rest ih =>
      obtain ⟨name, k⟩ := e
      cases k with
      | numeric =>
          have h1 : entryWidth TransformKind.numeric = 1 := rfl
          simp only [featureNames, List.length_cons, schemaWidth, List.map_cons,
            List.sum_cons, h1]
          simp only [schemaWidth] at ih
          omega
      | categorical observed =>
          have h1 : entryWidth (TransformKind.categorical observed) = observed.length + 1 := rfl
          simp only [featureNames, List.length_append, List.length_map, List.length_cons,
            List.length_nil, schemaWidth, List.map_cons, List.sum_cons, h1]
          simp only [schemaWidth] at ih
          omega

/-- Helper: summing over an index range a function that adds an extra value at
one index of the range. -/
lemma range_sum_shift (w c : ℕ) (x : ℚ) (g : ℕ → ℚ) (hc : c < w) :
    ((List.range w).map (fun i => (if c = i then x else 0) + g i)).sum
      = x + ((List.range w).map g).sum := by
  induction w with
  | zero => exact absurd hc (Nat.not_lt_zero c)
  | succ n ih =>
      rw [List.range_succ]
      simp only [List.map_append, List.sum_append, List.map_cons, List.map_nil,
        List.sum_cons, List.sum_nil]
      rcases Nat.lt_or_ge c n with h | h
      · rw [ih h, if_neg (Nat.ne_of_lt h)]
        ring
      · have hcn : c = n := by omega
        subst hcn
        have hz : ∀ i ∈ List.range c, ((if c = i then x else 0) + g i) = g i := by
          intro i hi
          rw [if_neg (by have := List.mem_range.mp hi; omega)]
          ring
        rw [List.map_congr_left hz, if_pos rfl]
        ring

/-- Helper: grouping stump responses by the slot they test loses nothing when
every stump tests a slot of the range. -/
lemma gbtree_fiber_sum (ts : List Stump) (v : List ℚ) (w : ℕ)
    (h : ∀ s ∈ ts, s.feat < w) :
    ((List.range w).map
        (fun i => ((ts.filter (fun s => s.feat == i)).map (fun s => s.eval v)).sum)).sum
      = (ts.map (fun s => s.eval v)).sum := by
  induction ts with
  | nil => simp
  | cons s rest ih =>
      have hrest : ∀ t ∈ rest, t.feat < w := fun t ht => h t (List.mem_cons_of_mem _ ht)
      have hs : s.feat < w := h s (List.mem_cons_self _ _)
      have hmap : ∀ i ∈ List.range w,
          (((s :: rest).filter (fun t => t.feat == i)).map (fun t => t.eval v)).sum
            = (if s.feat = i then s.eval v else 0) +
              ((rest.filter (fun t => t.feat == i)).map (fun t => t.eval v)).sum := by
        intro i _
        by_cases hi : s.feat = i
        · simp [List.filter_cons, hi]
        · simp [List.filter_cons, hi]
      rw [List.map_congr_left hmap,
        range_sum_shift w s.feat (s.eval v)
          (fun i => ((rest.filter (fun t => t.feat == i)).map (fun t => t.eval v)).sum) hs,
        ih hrest]
      simp

/-- Helper: the additive decomposition at the parameter level: the attribution
values sum, with the baseline, to the point estimate. -/
lemma attr_sum (p : ModelParams) (v : List ℚ) (w : ℕ)
    (hwf : WellFormedParams p w) (_hv : v.length = w) :
    (attrValues p v w).sum + baselineOf p = predictParams p v := by
  cases p with
  | linear b wt =>
      simp only [attrValues, baselineOf, predictParams]
      ring
  | gbtree b ts =>
      simp only [attrValues, baselineOf, predictParams]
      rw [gbtree_fiber_sum ts v w hwf]
      ring

/-- Helper: the attribution list covers exactly the schema slots. -/
lemma attrValues_length (p : ModelParams) (v : List ℚ) (w : ℕ)
    (hwf : WellFormedParams p w) (hv : v.length = w) :
    (attrValues p v w).length = w := by
  cases p with
  | linear b wt =>
      have hwt : wt.length = w := hwf
      simp [attrValues, List.length_zipWith, hwt, hv]
  | gbtree b ts => simp [attrValues]

/-- Helper: both fitting procedures produce parameters well-formed for the
width they are given. -/
lemma fitKind_wf (k : ModelKind) (tr : List (List ℚ × ℚ)) (w : ℕ) :
    WellFormedParams (fitKind k tr w) w := by
  cases k with
  | linear => simp [fitKind, fitLinear, WellFormedParams]
  | gbtree =>
      by_cases hw : w = 0
      · simp [fitKind, fitGbtree, hw, WellFormedParams]
      · simp only [fitKind, fitGbtree, if_neg hw]
        intro s hs
        simp only [List.mem_singleton] at hs
        rw [hs]
        exact Nat.pos_of_ne_zero hw

/-- Helper: every fitted candidate carries well-formed parameters. -/
lemma candidates_wf {xs : List (List ℚ)} {ys : List ℚ} {cfg : TrainConfig}
    {w : ℕ} {c : Candidate} (hc : c ∈ candidates xs ys cfg w) :
    WellFormedParams c.params w := by
  unfold candidates at hc
  obtain ⟨k, -, hck⟩ := List.mem_map.mp hc
  rw [← hck]
  exact fitKind_wf k _ w

/-- C1: for every artifact emitted by a training run and every feature vector
compatible with its FeatureSchema, explain succeeds and the attribution values
sum, with the baseline, exactly to the point estimate predict_raw, hence
within the relative tolerance of one in ten thousand. -/
theorem explain_additive_decomposition :
    ∀ (xs : List (List ℚ)) (ys : List ℚ) (cfg : TrainConfig) (schema : FeatureSchema)
      (newId now : ℕ) (a : ModelArtifact) (v : List ℚ),
      train xs ys cfg schema newId now = .ok a →
      v.length = schemaWidth a.schema →
      ∃ attr, explain a v = .ok attr ∧
        (attr.map Prod.snd).sum + baselineOf a.params = predict_raw a v ∧
        |(attr.map Prod.snd).sum + baselineOf a.params - predict_raw a v|
          ≤ 1 / 10000 * |predict_raw a v| := by
  intro xs ys cfg schema newId now a v htrain hv
  obtain ⟨c, hsel, hart⟩ := train_ok_elim htrain
  have hschema : a.schema = schema := by rw [hart]
  have hparams : a.params = c.params := by rw [hart]
  have hwf : WellFormedParams a.params (schemaWidth a.schema) := by
    rw [hparams, hschema]
    exact candidates_wf (selectChampion_mem hsel)
  have hsnd : ((featureNames a.schema).zip
      (attrValues a.params v (schemaWidth a.schema))).map Prod.snd
        = attrValues a.params v (schemaWidth a.schema) :=
    List.map_snd_zip _ _ (by rw [attrValues_length _ _ _ hwf hv, featureNames_length])
  have hsum : (attrValues a.params v (schemaWidth a.schema)).sum + baselineOf a.params
      = predict_raw a v := attr_sum _ _ _ hwf hv
  refine ⟨(featureNames a.schema).zip (attrValues a.params v (schemaWidth a.schema)),
    ?_, ?_, ?_⟩
  · unfold explain
    rw [if_pos hv]
  · rw [hsnd]
    exact hsum
  · rw [hsnd, hsum]
    simp only [sub_self, abs_zero]
    positivity

/-- C1 witness: the additive decomposition at the artifact trained on the
single row area 1, price 2, evaluated on the vector with area 5. -/
theorem explain_additive_decomposition_witness :
    ∃ attr, explain sampleArtifact [5] = .ok attr ∧
      (attr.map Prod.snd).sum + baselineOf sampleArtifact.params =
        predict_raw sampleArtifact [5] ∧
      |(attr.map Prod.snd).sum + baselineOf sampleArtifact.params -
          predict_raw sampleArtifact [5]|
        ≤ 1 / 10000 * |predict_raw sampleArtifact [5]| :=
  explain_additive_decomposition [[1]] [2] sampleCfg sampleSchema 1 0 sampleArtifact [5]
    (by with_unfolding_all rfl) (by with_unfolding_all rfl)

end REIP
